import Mathlib

/-!
Verification of the «Умный блокбастер» content pipeline.

Shallow embedding of the pure core of the repository:
`smart_blockbuster/models.py`, `structure.py`, `hook_engine.py`,
`analyzer.py`, `production.py`, `agents.py` (run_writer),
`agent_types.py` (PipelineState.add_log) and `main.py` (call_gemini).

Python machine details are modelled as follows: `str` is `String`
(lists of unicode code points), `int` is `Int`/`Nat` where only
non-negative values occur, `float` fractions are `ℚ` (Python float
division and `round` are monotone, so order facts proved over ℚ
transfer), dicts with a fixed key set are structures, dict keys that
are present only on some branches are `Option` fields, and fallible
constructors (`Enum(value)`) return `Option`.
-/

namespace SmartBlockbuster

/-! ## Character-level utilities shared by the analyzers

`re.split(r"[.!?]+", text)` followed by strip-and-drop-empties is
extensionally the same as splitting on every single terminator
character and then dropping blank segments (a run of k terminators
yields k-1 extra empty segments, all of which are dropped), so the
embedding splits on single characters. -/

def isTermChar (c : Char) : Bool := c == '.' || c == '!' || c == '?'

def isSpaceChar (c : Char) : Bool := c.isWhitespace

def splitStep (p : Char → Bool) (c : Char) (acc : List (List Char)) :
    List (List Char) :=
  match acc with
  | [] => [[]]
  | seg :: rest => if p c then [] :: seg :: rest else (c :: seg) :: rest

/-- Split a character list at every character satisfying `p`
(single-character split; delimiter characters are dropped). -/
def splitBy (p : Char → Bool) (cs : List Char) : List (List Char) :=
  cs.foldr (splitStep p) [[]]

/-- Python `str.strip()` on a character list. -/
def stripChars (cs : List Char) : List Char :=
  ((cs.dropWhile isSpaceChar).reverse.dropWhile isSpaceChar).reverse

/-- Python `str.split()` (split on whitespace, dropping empties). -/
def wordsOf (cs : List Char) : List (List Char) :=
  (splitBy isSpaceChar cs).filter (fun s => s ≠ [])

/-- Number of whitespace-separated tokens of a string (`len(s.split())`). -/
def wordCount (s : String) : Nat := (wordsOf s.toList).length

/-- Python `len(str)` counts code points, as does `List.length` here. -/
def strLen (s : String) : Nat := s.toList.length

/-- Lowercasing as Python `str.lower()` acts on the ASCII and Cyrillic
letters used by this code base. -/
def pyLowerChar (c : Char) : Char :=
  if 'A' ≤ c ∧ c ≤ 'Z' then Char.ofNat (c.toNat + 32)
  else if 'А' ≤ c ∧ c ≤ 'Я' then Char.ofNat (c.toNat + 32)
  else if c = 'Ё' then 'ё'
  else c

def pyLower (s : String) : String := String.mk (s.toList.map pyLowerChar)

/-- Python substring test `needle in haystack`. -/
def containsSub (haystack needle : List Char) : Bool :=
  match haystack with
  | [] => needle == []
  | _ :: rest => needle.isPrefixOf haystack || containsSub rest needle

def strContains (haystack needle : String) : Bool :=
  containsSub haystack.toList needle.toList

/-! ## Rounding

Python `round(x, d)` rounds half to even at `d` decimal digits. -/

def roundHalfEven (x : ℚ) : ℤ :=
  if x - (⌊x⌋ : ℚ) < 1/2 then ⌊x⌋
  else if 1/2 < x - (⌊x⌋ : ℚ) then ⌊x⌋ + 1
  else if ⌊x⌋ % 2 = 0 then ⌊x⌋ else ⌊x⌋ + 1

def pyRound (d : Nat) (x : ℚ) : ℚ := (roundHalfEven (x * 10 ^ d) : ℚ) / 10 ^ d

/-! ## Data model (`models.py`) -/

inductive HookArchetype where
  | investigator | contrarian | magician | fortune_teller | experimenter | teacher
deriving DecidableEq, Repr

def HookArchetype.value : HookArchetype → String
  | .investigator => "investigator"
  | .contrarian => "contrarian"
  | .magician => "magician"
  | .fortune_teller => "fortune_teller"
  | .experimenter => "experimenter"
  | .teacher => "teacher"

/-- `HookArchetype(value)`: enum lookup by value, `none` on unknown value. -/
def HookArchetype.fromValue : String → Option HookArchetype
  | "investigator" => some .investigator
  | "contrarian" => some .contrarian
  | "magician" => some .magician
  | "fortune_teller" => some .fortune_teller
  | "experimenter" => some .experimenter
  | "teacher" => some .teacher
  | _ => none

structure HookStep where
  name : String
  goal : String
  text : String
  visual : String
deriving DecidableEq, Repr

structure Hook where
  archetype : HookArchetype
  step1_anchor : HookStep
  step2_interjection : HookStep
  step3_snapback : HookStep
deriving DecidableEq, Repr

def Hook.steps (h : Hook) : List HookStep :=
  [h.step1_anchor, h.step2_interjection, h.step3_snapback]

inductive HookError where
  | delay | confusion | irrelevance | disinterest
deriving DecidableEq, Repr

inductive SerratedPhase where
  | high_start | context_bridge | rehook | investigation | synthesis
deriving DecidableEq, Repr

def SerratedPhase.value : SerratedPhase → String
  | .high_start => "high_start"
  | .context_bridge => "context_bridge"
  | .rehook => "rehook"
  | .investigation => "investigation"
  | .synthesis => "synthesis"

def SerratedPhase.fromValue : String → Option SerratedPhase
  | "high_start" => some .high_start
  | "context_bridge" => some .context_bridge
  | "rehook" => some .rehook
  | "investigation" => some .investigation
  | "synthesis" => some .synthesis
  | _ => none

structure EvidenceLoop where
  context : String
  deictic_driver : String
  evidence : String
  reveal : String
  transition : String
deriving DecidableEq, Repr

structure ScriptBlock where
  phase : SerratedPhase
  timecode_start : String
  timecode_end : String
  evidence_loops : List EvidenceLoop
  rehook_text : String
  intensity_pct : Int
deriving DecidableEq, Repr

inductive VisualType where
  | broll | stock_footage | text_overlay | meme_reference
  | snap_zoom | map | document | talking_head
deriving DecidableEq, Repr, Fintype

def VisualType.value : VisualType → String
  | .broll => "b-roll"
  | .stock_footage => "stock_footage"
  | .text_overlay => "text_overlay"
  | .meme_reference => "meme_reference"
  | .snap_zoom => "snap_zoom"
  | .map => "map"
  | .document => "document"
  | .talking_head => "talking_head"

def VisualType.fromValue : String → Option VisualType
  | "b-roll" => some .broll
  | "stock_footage" => some .stock_footage
  | "text_overlay" => some .text_overlay
  | "meme_reference" => some .meme_reference
  | "snap_zoom" => some .snap_zoom
  | "map" => some .map
  | "document" => some .document
  | "talking_head" => some .talking_head
  | _ => none

structure AVLine where
  timecode : String
  audio_text : String
  visual_description : String
  visual_type : VisualType
  sfx : String
  music_mood : String
deriving DecidableEq, Repr

/-- `AVScript`. The Python field `hook` is annotated `Hook`, but
`import_script_json` constructs scripts with `hook=None` and
`export_script_json` tests its truthiness, so the field is optional. -/
structure AVScript where
  title : String
  promise : String
  hook : Option Hook
  blocks : List ScriptBlock
  av_lines : List AVLine
  total_duration_sec : Int
deriving DecidableEq, Repr

/-! ## Narrative-arc generator (`structure.py`, `generate_serrated_edge`) -/

/-- `f"{m:02d}:00"` for a non-negative minute count. -/
def fmtMin (m : Nat) : String :=
  (if m < 10 then "0" ++ toString m else toString m) ++ ":00"

/-- The phases-3/4 `while` loop of `generate_serrated_edge`:
alternate investigation (3 min) and rehook (2 min) blocks, each span
clamped to the end boundary. -/
def genLoop (current_min end_min block_idx : Nat) : List ScriptBlock :=
  if h : current_min < end_min then
    let block_len := min (if block_idx % 2 = 0 then 3 else 2) (end_min - current_min)
    if h0 : block_len = 0 then
      []
    else
      let next_min := current_min + block_len
      let b : ScriptBlock :=
        if block_idx % 2 = 0 then
          ⟨.investigation, fmtMin current_min, fmtMin next_min, [], "", 60⟩
        else
          ⟨.rehook, fmtMin current_min, fmtMin next_min, [],
            "[Новый конфликт / Поворот сюжета]", 80⟩
      b :: genLoop next_min end_min (block_idx + 1)
  else
    []
termination_by end_min - current_min
decreasing_by
  simp only [gt_iff_lt]
  omega

def generate_serrated_edge (total_duration_min : Nat) : List ScriptBlock :=
  let b1 : ScriptBlock := ⟨.high_start, "00:00", "01:00", [], "", 95⟩
  let b2 : ScriptBlock :=
    ⟨.context_bridge, "01:00", "03:00", [],
      "[Перезацеп: ввести новый конфликт для перехода к расследованию]", 35⟩
  let current_min : Nat := 3
  let end_min := max (total_duration_min - 2) (current_min + 2)
  b1 :: b2 ::
    (genLoop current_min end_min 0 ++
      [⟨.synthesis, fmtMin end_min, fmtMin total_duration_min, [], "", 90⟩])

/-- `Timeline s blocks e`: the blocks tile the minute interval from `s`
to `e` — each block's printed start is the running boundary, its end is
a later (or equal) boundary, consecutive blocks share boundaries, and
the final boundary is `e`.  This expresses contiguity and
non-overlap of the printed `MM:SS` ranges at once. -/
def Timeline : Nat → List ScriptBlock → Nat → Prop
  | s, [], e => s = e
  | s, b :: bs, e =>
      b.timecode_start = fmtMin s ∧
      ∃ m, s ≤ m ∧ b.timecode_end = fmtMin m ∧ Timeline m bs e

theorem timeline_append {a b c : Nat} {xs ys : List ScriptBlock}
    (hx : Timeline a xs b) (hy : Timeline b ys c) :
    Timeline a (xs ++ ys) c := by
  induction xs generalizing a with
  | nil => simpa [Timeline] using hx ▸ hy
  | cons x xs ih =>
    obtain ⟨hs, m, hm, he, ht⟩ := hx
    exact ⟨hs, m, hm, he, ih ht⟩

theorem genLoop_timeline :
    ∀ d c e i, e - c = d → c ≤ e → Timeline c (genLoop c e i) e := by
  intro d
  induction d using Nat.strong_induction_on with
  | _ d ih =>
    intro c e i hd hce
    rw [genLoop]
    by_cases h : c < e
    · simp only [h, dif_pos]
      have h3 : (0 : Nat) < (if i % 2 = 0 then 3 else 2) := by split <;> omega
      have hk : (0 : Nat) < min (if i % 2 = 0 then 3 else 2) (e - c) :=
        lt_min h3 (by omega)
      have h0 : ¬ (min (if i % 2 = 0 then 3 else 2) (e - c) = 0) := by omega
      simp only [h0, dif_neg]
      set len := min (if i % 2 = 0 then 3 else 2) (e - c) with hlen
      have hnext : c + len ≤ e := by
        have : len ≤ e - c := Nat.min_le_right _ _
        omega
      have htail : Timeline (c + len) (genLoop (c + len) e (i + 1)) e := by
        refine ih (e - (c + len)) (by omega) _ _ _ rfl hnext
      by_cases hp : i % 2 = 0 <;>
        simp only [hp, if_pos, if_neg, ite_true, ite_false] <;>
        exact ⟨rfl, c + len, by omega, rfl, htail⟩
    · simp only [h, dif_neg, not_false_iff]
      simp only [Timeline]
      omega

theorem generate_serrated_edge_timeline (n : Nat) (hn : 5 ≤ n) :
    Timeline 0 (generate_serrated_edge n) n := by
  unfold generate_serrated_edge
  refine ⟨rfl, 1, by omega, rfl, ?_⟩
  refine ⟨rfl, 3, by omega, rfl, ?_⟩
  refine timeline_append (b := max (n - 2) 5) ?_ ?_
  · exact genLoop_timeline _ 3 _ 0 rfl (by omega)
  · exact ⟨rfl, n, by omega, rfl, rfl⟩

theorem timeline_chain :
    ∀ (s : Nat) (bs : List ScriptBlock) (e : Nat), Timeline s bs e →
      List.Chain' (fun a b => a.timecode_end = b.timecode_start) bs := by
  intro s bs
  induction bs generalizing s with
  | nil => intro e _; simp
  | cons b bs ih =>
    intro e h
    obtain ⟨_, m, _, he, ht⟩ := h
    cases bs with
    | nil => simp
    | cons b' rest =>
      have hs' := ht.1
      rw [List.chain'_cons]
      exact ⟨by rw [he, hs'], ih m e ht⟩

theorem timeline_last :
    ∀ (s : Nat) (bs : List ScriptBlock) (e : Nat), Timeline s bs e → bs ≠ [] →
      ∃ b, bs.getLast? = some b ∧ b.timecode_end = fmtMin e := by
  intro s bs
  induction bs generalizing s with
  | nil => intro e _ hne; exact absurd rfl hne
  | cons b bs ih =>
    intro e h _
    cases bs with
    | nil =>
      obtain ⟨_, m, _, he, ht⟩ := h
      have hme : m = e := ht
      subst hme
      exact ⟨b, rfl, he⟩
    | cons b' rest =>
      obtain ⟨_, m, _, he, ht⟩ := h
      obtain ⟨b'', hb1, hb2⟩ := ih m e ht (by simp)
      exact ⟨b'', by rw [List.getLast?_cons_cons]; exact hb1, hb2⟩

theorem generate_serrated_edge_last (n : Nat) :
    (generate_serrated_edge n).getLast? =
      some ⟨.synthesis, fmtMin (max (n - 2) 5), fmtMin n, [], "", 90⟩ := by
  unfold generate_serrated_edge
  rw [show ∀ (a b : ScriptBlock) l x, a :: b :: (l ++ [x]) = (a :: b :: l) ++ [x] by
        intro a b l x; simp]
  exact List.getLast?_concat _

/-- C1: for every duration of at least 5 minutes the generated block
list prints contiguous, non-overlapping timecode ranges (witnessed by a
non-decreasing minute timeline whose printed boundaries the blocks
carry), begins with a high_start block at 00:00, and ends with a
synthesis block whose end is the requested duration. -/
theorem claim_C1_serrated_edge_shape (n : Nat) (hn : 5 ≤ n) :
    List.Chain' (fun a b => a.timecode_end = b.timecode_start)
      (generate_serrated_edge n) ∧
    Timeline 0 (generate_serrated_edge n) n ∧
    (generate_serrated_edge n).head?.map (fun b => (b.phase, b.timecode_start)) =
      some (.high_start, "00:00") ∧
    (generate_serrated_edge n).getLast?.map (fun b => (b.phase, b.timecode_end)) =
      some (.synthesis, fmtMin n) := by
  refine ⟨timeline_chain 0 _ n (generate_serrated_edge_timeline n hn),
    generate_serrated_edge_timeline n hn, rfl, ?_⟩
  rw [generate_serrated_edge_last n]
  rfl

theorem claim_C1_witness :
    (List.Chain' (fun a b => a.timecode_end = b.timecode_start)
      (generate_serrated_edge 12) ∧
    Timeline 0 (generate_serrated_edge 12) 12 ∧
    (generate_serrated_edge 12).head?.map (fun b => (b.phase, b.timecode_start)) =
      some (.high_start, "00:00") ∧
    (generate_serrated_edge 12).getLast?.map (fun b => (b.phase, b.timecode_end)) =
      some (.synthesis, fmtMin 12)) :=
  claim_C1_serrated_edge_shape 12 (by omega)

/-! ### The small-duration edge case (claim C6)

`end_min = max(total_duration_min - 2, current_min + 2)` clamps the
phase-3 boundary UP to minute 5, so the boundary is never at or before
minute 3 and the loop always emits at least one investigation block. -/

theorem generate_serrated_edge_small (n : Nat) (hn : n ≤ 5) :
    generate_serrated_edge n =
      [⟨.high_start, "00:00", "01:00", [], "", 95⟩,
       ⟨.context_bridge, "01:00", "03:00", [],
         "[Перезацеп: ввести новый конфликт для перехода к расследованию]", 35⟩,
       ⟨.investigation, "03:00", "05:00", [], "", 60⟩,
       ⟨.synthesis, "05:00", fmtMin n, [], "", 90⟩] := by
  have hmax : max (n - 2) 5 = 5 := by omega
  simp only [generate_serrated_edge]
  rw [hmax]
  rw [genLoop.eq_def]
  norm_num
  rw [genLoop.eq_def]
  norm_num
  exact ⟨rfl, rfl⟩

/-- C6 counterexample: at duration 3 the generator emits an
investigation block (the claim predicts none for small durations), and
the final synthesis block's printed range runs from 05:00 back to
03:00, i.e. its end precedes its start. -/
theorem claim_C6_counterexample :
    (∃ b ∈ generate_serrated_edge 3, b.phase = .investigation) ∧
    (generate_serrated_edge 3).getLast?.map
        (fun b => (b.phase, b.timecode_start, b.timecode_end)) =
      some (.synthesis, "05:00", "03:00") := by
  rw [generate_serrated_edge_small 3 (by omega)]
  refine ⟨⟨⟨.investigation, "03:00", "05:00", [], "", 60⟩, by simp, rfl⟩, ?_⟩
  rfl

/-- C6 amended: the phase-3 end boundary is clamped up to minute 5, so
for every total duration of at most 5 minutes the generator still emits
exactly one investigation block (03:00–05:00) between the context
bridge and the synthesis block — the no-investigation path is
unreachable — the call returns normally, and the synthesis block spans
from 05:00 to the requested duration: zero-length at 5 minutes, and
with its end strictly before its start below 5. -/
theorem claim_C6_amended (n : Nat) (hn : n ≤ 5) :
    generate_serrated_edge n =
      [⟨.high_start, "00:00", "01:00", [], "", 95⟩,
       ⟨.context_bridge, "01:00", "03:00", [],
         "[Перезацеп: ввести новый конфликт для перехода к расследованию]", 35⟩,
       ⟨.investigation, "03:00", "05:00", [], "", 60⟩,
       ⟨.synthesis, "05:00", fmtMin n, [], "", 90⟩] :=
  generate_serrated_edge_small n hn

theorem claim_C6_witness :
    generate_serrated_edge 4 =
      [⟨.high_start, "00:00", "01:00", [], "", 95⟩,
       ⟨.context_bridge, "01:00", "03:00", [],
         "[Перезацеп: ввести новый конфликт для перехода к расследованию]", 35⟩,
       ⟨.investigation, "03:00", "05:00", [], "", 60⟩,
       ⟨.synthesis, "05:00", fmtMin 4, [], "", 90⟩] :=
  claim_C6_amended 4 (by omega)

/-! ## Hook validation (`hook_engine.py`, `validate_hook`) -/

structure HookValidationResult where
  error : HookError
  passed : Bool
  detail : String
deriving DecidableEq, Repr

/-- The letter class of the regex `[а-яёА-ЯЁa-zA-Z]+`. -/
def isHookLetter (c : Char) : Bool :=
  ('а' ≤ c && c ≤ 'я') || c == 'ё' || ('А' ≤ c && c ≤ 'Я') || c == 'Ё' ||
  ('a' ≤ c && c ≤ 'z') || ('A' ≤ c && c ≤ 'Z')

/-- `re.findall(r"[а-яёА-ЯЁa-zA-Z]+", text)`: maximal runs of letters. -/
def letterRuns (cs : List Char) : List (List Char) :=
  (splitBy (fun c => !isHookLetter c) cs).filter (fun s => s ≠ [])

def pyStrip (s : String) : String := String.mk (stripChars s.toList)

def AUDIENCE_MARKERS : List String :=
  ["вы", "вас", "вам", "ваш", "ваши", "тебя", "тебе",
   "you", "your", "посмотрите", "представьте", "look"]

def CONFLICT_MARKERS : List String :=
  ["но", "однако", "проблема", "скрыва", "тайн", "опасн", "шок",
   "безумие", "невозможно", "запрещ", "секрет", "скандал", "угроз",
   "but", "however", "secret", "hidden", "shocking", "danger"]

def allStepText (hook : Hook) : String :=
  String.intercalate " " (hook.steps.map (fun s => s.text))

def delayCheck (hook : Hook) : Bool :=
  hook.step1_anchor.visual != "" && pyStrip hook.step1_anchor.visual != ""

def longWords (hook : Hook) : List (List Char) :=
  (letterRuns (allStepText hook).toList).filter (fun w => 15 < w.length)

def confusionCheck (hook : Hook) : Bool :=
  (longWords hook).length = 0 &&
    hook.steps.all (fun s => pyStrip s.visual != "")

def irrelevanceCheck (hook : Hook) : Bool :=
  AUDIENCE_MARKERS.any (fun m => strContains (pyLower (allStepText hook)) m)

def disinterestCheck (hook : Hook) : Bool :=
  CONFLICT_MARKERS.any (fun m =>
    strContains (pyLower hook.step3_snapback.text) m ||
    strContains (pyLower (allStepText hook)) m)

def validate_hook (hook : Hook) : List HookValidationResult :=
  [⟨.delay, delayCheck hook,
     if delayCheck hook then "Визуальный якорь указан в шаге 1."
     else "ОШИБКА: Визуальный якорь отсутствует в шаге 1. Переписать!"⟩,
   ⟨.confusion, confusionCheck hook,
     if confusionCheck hook then "Текст простой, визуалы прописаны для каждого шага."
     else "ВНИМАНИЕ: Сложные слова (" ++
       String.intercalate ", " (((longWords hook).take 5).map String.mk) ++
       ") или отсутствует визуал. Правило 6-го класса нарушено."⟩,
   ⟨.irrelevance, irrelevanceCheck hook,
     if irrelevanceCheck hook then "Обращение к зрителю обнаружено (Audience of One)."
     else "ОШИБКА: Нет обращения к зрителю. Добавить «вы» / «посмотрите»."⟩,
   ⟨.disinterest, disinterestCheck hook,
     if disinterestCheck hook then "Конфликт / высокие ставки обнаружены."
     else "ВНИМАНИЕ: Ставки не выглядят достаточно высокими. Усилить конфликт."⟩]

/-- A hook meeting every hypothesis of claim C5 as literally stated,
except that its second step has an empty visual. -/
def hookMissingVisual : Hook :=
  ⟨.investigator,
   ⟨"Контекстное вовлечение + Якорь", "g", "Look at this secret file", "document photo"⟩,
   ⟨"Интервенция остановки", "g", "But wait", ""⟩,
   ⟨"Контрарный отскок", "g", "This is a hidden problem", "chart"⟩⟩

/-- C5 counterexample: this hook satisfies every hypothesis of the
claim — non-empty anchor visual, no word over 15 characters, a
second-person marker in the concatenated text, a conflict keyword in
the snapback — yet not all four checks pass, because the confusion
check additionally requires every step to carry a non-empty visual and
the second step's visual is empty. -/
theorem claim_C5_counterexample :
    hookMissingVisual.step1_anchor.visual ≠ "" ∧
    longWords hookMissingVisual = [] ∧
    irrelevanceCheck hookMissingVisual = true ∧
    CONFLICT_MARKERS.any (fun m =>
      strContains (pyLower hookMissingVisual.step3_snapback.text) m) = true ∧
    ¬ (∀ r ∈ validate_hook hookMissingVisual, r.passed = true) := by
  refine ⟨by decide, by decide, by decide, by decide, fun hall => ?_⟩
  have h2 := hall ⟨.confusion, confusionCheck hookMissingVisual,
    "ВНИМАНИЕ: Сложные слова () или отсутствует визуал. Правило 6-го класса нарушено."⟩
    (by decide)
  revert h2
  decide

theorem pyStrip_ne_empty {s : String} (h : pyStrip s ≠ "") : s ≠ "" := by
  intro hs
  subst hs
  exact h rfl

/-- C5 amended: `validate_hook` always returns exactly 4 results in
the fixed order delay, confusion, irrelevance, disinterest; and for
every hook each of whose three steps carries a visual that is
non-empty after stripping whitespace, whose steps' text contains no
word longer than 15 characters, whose concatenated step text contains
a second-person address marker, and whose snapback text contains a
conflict keyword, all four checks pass. -/
theorem claim_C5_amended (hook : Hook)
    (hv : ∀ s ∈ hook.steps, pyStrip s.visual ≠ "")
    (hw : longWords hook = [])
    (ha : irrelevanceCheck hook = true)
    (hc : CONFLICT_MARKERS.any (fun m =>
      strContains (pyLower hook.step3_snapback.text) m) = true) :
    (validate_hook hook).map (fun r => r.error) =
      [.delay, .confusion, .irrelevance, .disinterest] ∧
    (validate_hook hook).map (fun r => r.passed) = [true, true, true, true] := by
  have hd : delayCheck hook = true := by
    have h1 : pyStrip hook.step1_anchor.visual ≠ "" :=
      hv hook.step1_anchor (by simp [Hook.steps])
    simp only [delayCheck, Bool.and_eq_true, bne_iff_ne, ne_eq]
    exact ⟨pyStrip_ne_empty h1, h1⟩
  have hcf : confusionCheck hook = true := by
    simp only [confusionCheck, Bool.and_eq_true, decide_eq_true_eq,
      List.all_eq_true, bne_iff_ne, ne_eq]
    exact ⟨by rw [hw]; rfl, fun s hs => hv s hs⟩
  have hds : disinterestCheck hook = true := by
    simp only [disinterestCheck, List.any_eq_true, Bool.or_eq_true]
    simp only [List.any_eq_true] at hc
    obtain ⟨m, hm, hsub⟩ := hc
    exact ⟨m, hm, Or.inl hsub⟩
  simp [validate_hook, hd, hcf, ha, hds]

/-- A hook meeting all hypotheses of the amended claim C5. -/
def hookGood : Hook :=
  ⟨.contrarian,
   ⟨"Контекстное вовлечение + Якорь", "g", "Look at this financial report",
     "[Финансовый отчёт Starbucks]"⟩,
   ⟨"Интервенция остановки", "g", "But wait", "[Резкий зум]"⟩,
   ⟨"Контрарный отскок", "g", "Starbucks is secretly a bank", "[График]"⟩⟩

theorem claim_C5_witness :
    (∀ s ∈ hookGood.steps, pyStrip s.visual ≠ "") ∧
    longWords hookGood = [] ∧
    irrelevanceCheck hookGood = true ∧
    CONFLICT_MARKERS.any (fun m =>
      strContains (pyLower hookGood.step3_snapback.text) m) = true ∧
    ((validate_hook hookGood).map (fun r => r.error) =
      [.delay, .confusion, .irrelevance, .disinterest] ∧
    (validate_hook hookGood).map (fun r => r.passed) = [true, true, true, true]) :=
  ⟨by decide, by decide, by decide, by decide,
   claim_C5_amended hookGood (by decide) (by decide) (by decide) (by decide)⟩

/-! ## Agent pipeline types (`agent_types.py`) -/

inductive ContentType where
  | investigation | explainer | geopolitics | business
deriving DecidableEq, Repr

structure TopicSuggestion where
  title : String
  hook_idea : String
  content_type : ContentType
  archetype : HookArchetype
  viral_factor : String
deriving DecidableEq, Repr

structure RadarOutput where
  topic : String
  viral_angles : List String
  dopamine_hooks : List String
  target_emotion : String
  contrarian_take : String
deriving DecidableEq, Repr

structure DataPoint where
  label : String
  value : String
deriving DecidableEq, Repr

structure ResearchDossier where
  topic : String
  claims : List String
  counter_claims : List String
  visual_anchors : List String
  data_points : List DataPoint
  evidence_loops : List EvidenceLoop
  villain : String
  victim : String
  shocking_artifact : String
deriving DecidableEq, Repr

structure StructureBlueprint where
  title : String
  promise : String
  hook : Hook
  blocks : List ScriptBlock
  thumbnail_concept : String
  duration_min : Int
  but_therefore_chain : String
deriving DecidableEq, Repr

structure WriterOutput where
  script : AVScript
  word_count : Nat
  block_count : Nat
deriving DecidableEq, Repr

structure PipelineState where
  current_agent : String
  is_processing : Bool
  is_steppable : Bool
  step_status : String
  logs : List String
  topic : String
  content_type : Option String
  scout_suggestions : List TopicSuggestion
  radar_output : Option RadarOutput
  research_dossier : Option ResearchDossier
  structure_blueprint : Option StructureBlueprint
  writer_output : Option WriterOutput
deriving DecidableEq, Repr

/-- The dataclass defaults of `PipelineState`. -/
def initPipelineState : PipelineState :=
  ⟨"idle", false, false, "idle", [], "", none, [], none, none, none, none⟩

/-- `PipelineState.add_log`: append, then keep only the last 500
entries (`self.logs = self.logs[-500:]`). -/
def PipelineState.add_log (st : PipelineState) (message : String) : PipelineState :=
  let logs := st.logs ++ [message]
  if 500 < logs.length then
    { st with logs := logs.drop (logs.length - 500) }
  else
    { st with logs := logs }

/-- The last `n` entries of a list (`l[-n:]` for a list longer than `n`,
the whole list otherwise). -/
def lastN (n : Nat) (l : List α) : List α := l.drop (l.length - n)

theorem lastN_of_le {n : Nat} {l : List α} (h : l.length ≤ n) : lastN n l = l := by
  unfold lastN
  rw [Nat.sub_eq_zero_of_le h, List.drop_zero]

theorem add_log_logs (st : PipelineState) (m : String) :
    (st.add_log m).logs = lastN 500 (st.logs ++ [m]) := by
  unfold PipelineState.add_log
  by_cases h : 500 < (st.logs ++ [m]).length
  · simp only [h, if_pos]
    rfl
  · simp only [h, if_neg, not_false_iff]
    rw [lastN_of_le (by omega)]

theorem lastN_lastN_append (n : Nat) (xs ys : List α) :
    lastN n (lastN n xs ++ ys) = lastN n (xs ++ ys) := by
  by_cases hxs : xs.length ≤ n
  · rw [lastN_of_le hxs]
  · push_neg at hxs
    unfold lastN
    have hlen : (xs.drop (xs.length - n)).length = n := by
      rw [List.length_drop]
      omega
    rw [List.drop_append_eq_append_drop, List.drop_append_eq_append_drop,
      List.drop_drop, hlen]
    have h1 : (xs.drop (xs.length - n) ++ ys).length - n = ys.length := by
      rw [List.length_append, hlen]
      omega
    have h2 : (xs ++ ys).length - n = xs.length + ys.length - n := by
      rw [List.length_append]
    rw [h1, h2]
    have h3 : xs.length - n + ys.length = xs.length + ys.length - n := by omega
    have h4 : ys.length - n = xs.length + ys.length - n - xs.length := by omega
    rw [h3, h4]

theorem add_log_fold (msgs : List String) :
    ∀ st : PipelineState, st.logs.length ≤ 500 →
      (msgs.foldl PipelineState.add_log st).logs = lastN 500 (st.logs ++ msgs) := by
  induction msgs with
  | nil =>
    intro st h
    rw [List.foldl_nil, List.append_nil, lastN_of_le h]
  | cons m ms ih =>
    intro st h
    rw [List.foldl_cons]
    have hlen : (st.add_log m).logs.length ≤ 500 := by
      rw [add_log_logs]
      unfold lastN
      rw [List.length_drop]
      omega
    rw [ih _ hlen, add_log_logs, lastN_lastN_append]
    simp

/-- C9: the bound `len(logs) ≤ 500` is preserved by every `add_log`
call, and eviction is oldest-first: starting from the initial (empty)
state, any sequence of `add_log` calls leaves exactly the most recent
at-most-500 messages, in their original append order. -/
theorem claim_C9_log_cap :
    (∀ (st : PipelineState) (m : String), st.logs.length ≤ 500 →
       (st.add_log m).logs.length ≤ 500) ∧
    (∀ msgs : List String,
       (msgs.foldl PipelineState.add_log initPipelineState).logs =
         msgs.drop (msgs.length - 500)) := by
  constructor
  · intro st m _
    rw [add_log_logs]
    unfold lastN
    rw [List.length_drop]
    omega
  · intro msgs
    rw [add_log_fold msgs initPipelineState (by simp [initPipelineState])]
    rfl

theorem claim_C9_witness :
    (initPipelineState.add_log "[SCOUT] start").logs.length ≤ 500 ∧
    ((["a", "b", "c"].foldl PipelineState.add_log initPipelineState).logs =
      ["a", "b", "c"].drop (["a", "b", "c"].length - 500)) :=
  ⟨claim_C9_log_cap.1 initPipelineState "[SCOUT] start" (by simp [initPipelineState]),
   claim_C9_log_cap.2 ["a", "b", "c"]⟩

/-! ## JSON export / import (`production.py`)

The persisted JSON document is modelled as a typed record mirroring
exactly the dictionary `export_script_json` writes (the
`json.dumps`/`json.loads` layer is a faithful bijection on this
shape).  Enum members are stored by their string `value`; the import
side rebuilds them through the fallible enum constructors, so
importing returns an `Option`. -/

structure HookStepDoc where
  name : String
  goal : String
  text : String
  visual : String
deriving DecidableEq, Repr

structure HookDoc where
  archetype : String
  steps : List HookStepDoc
deriving DecidableEq, Repr

structure LoopDoc where
  context : String
  deictic_driver : String
  evidence : String
  reveal : String
  transition : String
deriving DecidableEq, Repr

structure BlockDoc where
  phase : String
  timecode_start : String
  timecode_end : String
  intensity_pct : Int
  rehook_text : String
  evidence_loops : List LoopDoc
deriving DecidableEq, Repr

structure AVLineDoc where
  timecode : String
  audio_text : String
  visual_description : String
  visual_type : String
  sfx : String
  music_mood : String
deriving DecidableEq, Repr

structure ScriptDoc where
  title : String
  promise : String
  total_duration_sec : Int
  hook : Option HookDoc
  blocks : List BlockDoc
  av_lines : List AVLineDoc
deriving DecidableEq, Repr

def exportStep (s : HookStep) : HookStepDoc := ⟨s.name, s.goal, s.text, s.visual⟩

def exportHook (h : Hook) : HookDoc := ⟨h.archetype.value, h.steps.map exportStep⟩

def exportLoop (l : EvidenceLoop) : LoopDoc :=
  ⟨l.context, l.deictic_driver, l.evidence, l.reveal, l.transition⟩

def exportBlock (b : ScriptBlock) : BlockDoc :=
  ⟨b.phase.value, b.timecode_start, b.timecode_end, b.intensity_pct,
   b.rehook_text, b.evidence_loops.map exportLoop⟩

def exportAVLine (l : AVLine) : AVLineDoc :=
  ⟨l.timecode, l.audio_text, l.visual_description, l.visual_type.value,
   l.sfx, l.music_mood⟩

def export_script_json (script : AVScript) : ScriptDoc :=
  ⟨script.title, script.promise, script.total_duration_sec,
   script.hook.map exportHook,
   script.blocks.map exportBlock,
   script.av_lines.map exportAVLine⟩

def importStep (d : HookStepDoc) : HookStep := ⟨d.name, d.goal, d.text, d.visual⟩

def importHook (hd : HookDoc) : Option Hook := do
  let a ← HookArchetype.fromValue hd.archetype
  let s1 ← hd.steps[0]?
  let s2 ← hd.steps[1]?
  let s3 ← hd.steps[2]?
  pure ⟨a, importStep s1, importStep s2, importStep s3⟩

def importLoop (d : LoopDoc) : EvidenceLoop :=
  ⟨d.context, d.deictic_driver, d.evidence, d.reveal, d.transition⟩

def importBlock (bd : BlockDoc) : Option ScriptBlock := do
  let p ← SerratedPhase.fromValue bd.phase
  pure ⟨p, bd.timecode_start, bd.timecode_end, bd.evidence_loops.map importLoop,
    bd.rehook_text, bd.intensity_pct⟩

def importAVLine (ld : AVLineDoc) : Option AVLine := do
  let vt ← VisualType.fromValue ld.visual_type
  pure ⟨ld.timecode, ld.audio_text, ld.visual_description, vt, ld.sfx, ld.music_mood⟩

/-- The Python import loops build each list element by element and
abort on the first failure. -/
def importList {α β : Type} (f : α → Option β) : List α → Option (List β)
  | [] => some []
  | a :: rest => do
      let b ← f a
      let bs ← importList f rest
      pure (b :: bs)

def import_script_json (data : ScriptDoc) : Option AVScript := do
  let hook ← match data.hook with
    | none => pure none
    | some hd => do
        let h ← importHook hd
        pure (some h)
  let blocks ← importList importBlock data.blocks
  let av_lines ← importList importAVLine data.av_lines
  pure ⟨data.title, data.promise, hook, blocks, av_lines, data.total_duration_sec⟩

theorem archetype_roundtrip (a : HookArchetype) :
    HookArchetype.fromValue a.value = some a := by cases a <;> rfl

theorem phase_roundtrip (p : SerratedPhase) :
    SerratedPhase.fromValue p.value = some p := by cases p <;> rfl

theorem visual_type_roundtrip (v : VisualType) :
    VisualType.fromValue v.value = some v := by cases v <;> rfl

theorem hook_roundtrip (h : Hook) : importHook (exportHook h) = some h := by
  simp [importHook, exportHook, Hook.steps, importStep, exportStep,
    archetype_roundtrip]

theorem loop_roundtrip (l : EvidenceLoop) : importLoop (exportLoop l) = l := rfl

theorem block_roundtrip (b : ScriptBlock) : importBlock (exportBlock b) = some b := by
  simp [importBlock, exportBlock, phase_roundtrip, Function.comp_def, loop_roundtrip]

theorem avline_roundtrip (l : AVLine) : importAVLine (exportAVLine l) = some l := by
  simp [importAVLine, exportAVLine, visual_type_roundtrip]

theorem importList_roundtrip {α β : Type} (f : α → β) (g : β → Option α)
    (hfg : ∀ a, g (f a) = some a) (l : List α) :
    importList g (l.map f) = some l := by
  induction l with
  | nil => rfl
  | cons a l ih => simp [importList, hfg, ih]

/-- C2: exporting any script to the persisted JSON document shape and
importing it back reconstructs the script exactly, in every field —
title, promise, duration, optional hook with its archetype and three
steps, every block with its attached evidence loops, and every AVLine
— including scripts with no hook, zero blocks and zero lines. -/
theorem claim_C2_roundtrip (script : AVScript) :
    import_script_json (export_script_json script) = some script := by
  obtain ⟨title, promise, hook, blocks, av_lines, dur⟩ := script
  unfold import_script_json export_script_json
  cases hook with
  | none =>
    simp [importList_roundtrip exportBlock importBlock block_roundtrip,
      importList_roundtrip exportAVLine importAVLine avline_roundtrip]
  | some h =>
    simp [hook_roundtrip,
      importList_roundtrip exportBlock importBlock block_roundtrip,
      importList_roundtrip exportAVLine importAVLine avline_roundtrip]

/-! ## The Writer agent (`agents.py`, `run_writer`) -/

def SFX_MAP : VisualType → String
  | .document => "paper rustle"
  | .map => "paper rustle"
  | .text_overlay => "whoosh"
  | .snap_zoom => "boom hit"
  | .broll => ""
  | .stock_footage => ""
  | .meme_reference => "comedy sting"
  | .talking_head => ""

def MUSIC_MAP : SerratedPhase → String
  | .high_start => "ambient тревожный"
  | .context_bridge => "ambient спокойный"
  | .rehook => "driving beat нарастающий"
  | .investigation => "driving beat ритмичный"
  | .synthesis => "epic пиано / оркестр"

def pad2 (n : Nat) : String := if n < 10 then "0" ++ toString n else toString n

/-- `f"{sec // 60:02d}:{sec % 60:02d}"`. -/
def fmtTc (sec : Nat) : String := pad2 (sec / 60) ++ ":" ++ pad2 (sec % 60)

def visual_types_cycle : List VisualType :=
  [.talking_head, .document, .map, .broll, .text_overlay, .stock_footage,
   .snap_zoom, .talking_head, .document]

/-- One hook step's AVLine (`i` is the 0-based step index). -/
def hookLine (i sec : Nat) (step : HookStep) : AVLine :=
  let vtype : VisualType :=
    if i = 0 then .document else if i = 1 then .snap_zoom else .text_overlay
  ⟨fmtTc sec, step.text,
   (if step.visual ≠ "" then step.visual else "[" ++ step.name ++ "]"),
   vtype, SFX_MAP vtype, MUSIC_MAP .high_start⟩

/-- The hook emission loop: three lines of 2s, 2s, 3s starting at 0. -/
def emitHook (hook : Hook) : Nat × List AVLine :=
  hook.steps.enum.foldl
    (fun acc p =>
      let dur := if p.1 < 2 then 2 else 3
      (acc.1 + dur, acc.2 ++ [hookLine p.1 acc.1 p.2]))
    (0, [])

/-- One evidence loop's four AVLines (context 4s, deictic driver 3s,
reveal 4s, transition 3s); the accumulator is
(current_sec, vtype_idx, lines so far). -/
def emitLoopLines (music : String) (acc : Nat × Nat × List AVLine)
    (loop : EvidenceLoop) : Nat × Nat × List AVLine :=
  let sec := acc.1
  let vidx := acc.2.1
  let lines := acc.2.2
  let vt1 := visual_types_cycle.getD (vidx % visual_types_cycle.length) .talking_head
  let l1 : AVLine := ⟨fmtTc sec, loop.context, "[" ++ vt1.value ++ "]",
    vt1, SFX_MAP vt1, music⟩
  let l2 : AVLine := ⟨fmtTc (sec + 4), loop.deictic_driver,
    "[" ++ loop.evidence ++ "]", .document, "paper rustle", music⟩
  let l3 : AVLine := ⟨fmtTc (sec + 4 + 3), loop.reveal,
    "[Хайлайт ключевой фразы]", .text_overlay, "whoosh", music⟩
  let l4 : AVLine := ⟨fmtTc (sec + 4 + 3 + 4), loop.transition,
    "[Зум на автора / новый визуал]", .snap_zoom, "boom hit", music⟩
  (sec + 4 + 3 + 4 + 3, vidx + 3, lines ++ [l1, l2, l3, l4])

/-- One script block: its evidence loops, then a rehook line (3s) when
`rehook_text` is non-empty. -/
def emitBlockLines (acc : Nat × Nat × List AVLine) (block : ScriptBlock) :
    Nat × Nat × List AVLine :=
  let music := MUSIC_MAP block.phase
  let r := block.evidence_loops.foldl (emitLoopLines music) acc
  if block.rehook_text ≠ "" then
    (r.1 + 3, r.2.1,
     r.2.2 ++ [⟨fmtTc r.1, block.rehook_text,
       "[Резкая смена кадра / новый конфликт]", .snap_zoom, "boom hit",
       MUSIC_MAP .rehook⟩])
  else
    r

/-- State of the emission after the hook and all block loops:
(current_sec, vtype_idx, av_lines). -/
def writerCore (blueprint : StructureBlueprint) : Nat × Nat × List AVLine :=
  blueprint.blocks.foldl emitBlockLines
    ((emitHook blueprint.hook).1, 0, (emitHook blueprint.hook).2)

/-- The two fixed closing synthesis lines (4s and 5s). -/
def closingLines (sec : Nat) : List AVLine :=
  [⟨fmtTc sec, "Честно говоря, ответ не так прост.",
    "[Автор крупным планом, мягкий свет]", .talking_head, "",
    MUSIC_MAP .synthesis⟩,
   ⟨fmtTc (sec + 4),
    "На самом деле, вопрос остаётся открытым. И решать вам.",
    "[Чёрный экран с текстом вопроса]", .text_overlay, "whoosh",
    MUSIC_MAP .synthesis⟩]

def writerAVLines (blueprint : StructureBlueprint) : List AVLine :=
  (writerCore blueprint).2.2 ++ closingLines (writerCore blueprint).1

/-- Final `current_sec` after the two closing lines (+4 then +5). -/
def writerFinalSec (blueprint : StructureBlueprint) : Nat :=
  (writerCore blueprint).1 + 4 + 5

def run_writer (state : PipelineState) (blueprint : StructureBlueprint)
    (dossier : ResearchDossier) : WriterOutput × PipelineState :=
  let state := state.add_log "[WRITER] Запуск агента Сценарист..."
  let state := state.add_log "[WRITER] Генерация A/V сценария в стиле Стаккато..."
  let av_lines := writerAVLines blueprint
  let current_sec := writerFinalSec blueprint
  let script : AVScript := ⟨blueprint.title, blueprint.promise,
    some blueprint.hook, blueprint.blocks, av_lines, (current_sec : Int)⟩
  let word_count := (av_lines.map (fun l => wordCount l.audio_text)).sum
  let output : WriterOutput := ⟨script, word_count, av_lines.length⟩
  let state := { state with writer_output := some output }
  let state := state.add_log ("[WRITER] Сценарий готов: " ++
    toString output.block_count ++ " блоков, " ++ toString output.word_count ++
    " слов, " ++ toString current_sec ++ " сек.")
  (output, state)

/-- Total number of evidence loops attached to the blocks. -/
def totalLoops (blocks : List ScriptBlock) : Nat :=
  (blocks.map (fun b => b.evidence_loops.length)).sum

/-- Number of blocks carrying a non-empty rehook text. -/
def rehookCount (blocks : List ScriptBlock) : Nat :=
  (blocks.filter (fun b => b.rehook_text ≠ "")).length

theorem emitLoop_foldl_spec (music : String) (loops : List EvidenceLoop) :
    ∀ acc : Nat × Nat × List AVLine,
      (loops.foldl (emitLoopLines music) acc).1 = acc.1 + 14 * loops.length ∧
      (loops.foldl (emitLoopLines music) acc).2.2.length =
        acc.2.2.length + 4 * loops.length := by
  induction loops with
  | nil => intro acc; simp
  | cons l ls ih =>
    intro acc
    rw [List.foldl_cons]
    obtain ⟨h1, h2⟩ := ih (emitLoopLines music acc l)
    rw [h1, h2]
    simp only [emitLoopLines, List.length_append]
    constructor <;> simp <;> omega

theorem emitBlock_spec (acc : Nat × Nat × List AVLine) (b : ScriptBlock) :
    (emitBlockLines acc b).1 =
      acc.1 + 14 * b.evidence_loops.length +
        (if b.rehook_text ≠ "" then 3 else 0) ∧
    (emitBlockLines acc b).2.2.length =
      acc.2.2.length + 4 * b.evidence_loops.length +
        (if b.rehook_text ≠ "" then 1 else 0) := by
  obtain ⟨h1, h2⟩ := emitLoop_foldl_spec (MUSIC_MAP b.phase) b.evidence_loops acc
  unfold emitBlockLines
  by_cases hr : b.rehook_text ≠ "" <;> simp [hr, h1, h2]

theorem emitBlocks_foldl_spec (blocks : List ScriptBlock) :
    ∀ acc : Nat × Nat × List AVLine,
      (blocks.foldl emitBlockLines acc).1 =
        acc.1 + 14 * totalLoops blocks + 3 * rehookCount blocks ∧
      (blocks.foldl emitBlockLines acc).2.2.length =
        acc.2.2.length + 4 * totalLoops blocks + rehookCount blocks := by
  induction blocks with
  | nil => intro acc; simp [totalLoops, rehookCount]
  | cons b bs ih =>
    intro acc
    rw [List.foldl_cons]
    obtain ⟨h1, h2⟩ := ih (emitBlockLines acc b)
    obtain ⟨g1, g2⟩ := emitBlock_spec acc b
    have ht : totalLoops (b :: bs) = b.evidence_loops.length + totalLoops bs := by
      simp [totalLoops]
    by_cases h : b.rehook_text ≠ ""
    · rw [if_pos h] at g1 g2
      have hrc : rehookCount (b :: bs) = rehookCount bs + 1 := by
        simp [rehookCount, List.filter_cons, h]
      constructor <;> omega
    · rw [if_neg h] at g1 g2
      have hrc : rehookCount (b :: bs) = rehookCount bs := by
        simp [rehookCount, List.filter_cons, h]
      constructor <;> omega

theorem emitHook_spec (hook : Hook) :
    (emitHook hook).1 = 7 ∧
    (emitHook hook).2.length = 3 ∧
    (emitHook hook).2.map (fun l => l.timecode) = ["00:00", "00:02", "00:04"] := by
  refine ⟨rfl, rfl, ?_⟩
  have h : (emitHook hook).2.map (fun l => l.timecode) =
      [fmtTc 0, fmtTc 2, fmtTc 4] := rfl
  rw [h]
  decide

theorem emitLoop_foldl_prefix (loops : List EvidenceLoop) :
    ∀ (music : String) (a : Nat × Nat × List AVLine),
      ∃ r, (loops.foldl (emitLoopLines music) a).2.2 = a.2.2 ++ r := by
  induction loops with
  | nil => intro music a; exact ⟨[], by simp⟩
  | cons l ls ihl =>
    intro music a
    obtain ⟨r, hr⟩ := ihl music (emitLoopLines music a l)
    have h4 : ∃ r4, (emitLoopLines music a l).2.2 = a.2.2 ++ r4 := ⟨_, rfl⟩
    obtain ⟨r4, hr4⟩ := h4
    rw [List.foldl_cons]
    exact ⟨r4 ++ r, by rw [hr, hr4, List.append_assoc]⟩

theorem emitBlock_prefix (acc : Nat × Nat × List AVLine) (b : ScriptBlock) :
    ∃ r0, (emitBlockLines acc b).2.2 = acc.2.2 ++ r0 := by
  obtain ⟨r, hr⟩ := emitLoop_foldl_prefix b.evidence_loops (MUSIC_MAP b.phase) acc
  simp only [emitBlockLines]
  by_cases hrt : b.rehook_text ≠ ""
  · exact ⟨r ++ [⟨fmtTc (List.foldl (emitLoopLines (MUSIC_MAP b.phase)) acc
        b.evidence_loops).1, b.rehook_text,
        "[Резкая смена кадра / новый конфликт]", .snap_zoom, "boom hit",
        MUSIC_MAP .rehook⟩], by
      rw [if_pos hrt]
      show (List.foldl (emitLoopLines (MUSIC_MAP b.phase)) acc
        b.evidence_loops).2.2 ++ [_] = _
      rw [hr]
      exact List.append_assoc _ _ _⟩
  · exact ⟨r, by rw [if_neg hrt]; exact hr⟩

theorem emitBlocks_foldl_lines_prefix (blocks : List ScriptBlock) :
    ∀ acc : Nat × Nat × List AVLine,
      ∃ rest, (blocks.foldl emitBlockLines acc).2.2 = acc.2.2 ++ rest := by
  induction blocks with
  | nil => intro acc; exact ⟨[], by simp⟩
  | cons b bs ih =>
    intro acc
    obtain ⟨rest1, hrest1⟩ := ih (emitBlockLines acc b)
    obtain ⟨r0, hr0⟩ := emitBlock_prefix acc b
    rw [List.foldl_cons]
    exact ⟨r0 ++ rest1, by rw [hrest1, hr0, List.append_assoc]⟩

/-- C3: for every pipeline state, blueprint and dossier, the Writer
emits 3 hook lines (at seconds 0, 2, 4), then 4 lines per attached
evidence loop, one rehook line per block with non-empty rehook text,
and 2 closing lines, so with L total loops and R rehook blocks the
script has 3 + 4·L + R + 2 AVLines and a running duration of
16 + 14·L + 3·R seconds, and the reported word count is the sum of the
whitespace-token counts of all AVLine audio texts. -/
theorem claim_C3_writer_layout (state : PipelineState)
    (bp : StructureBlueprint) (dossier : ResearchDossier) :
    (run_writer state bp dossier).1.script.av_lines.length =
      3 + 4 * totalLoops bp.blocks + rehookCount bp.blocks + 2 ∧
    (run_writer state bp dossier).1.script.total_duration_sec =
      ((16 + 14 * totalLoops bp.blocks + 3 * rehookCount bp.blocks : Nat) : Int) ∧
    (run_writer state bp dossier).1.word_count =
      ((run_writer state bp dossier).1.script.av_lines.map
        (fun l => wordCount l.audio_text)).sum ∧
    ((run_writer state bp dossier).1.script.av_lines.map
        (fun l => l.timecode)).take 3 = ["00:00", "00:02", "00:04"] := by
  obtain ⟨hsec, hlen, htc⟩ := emitHook_spec bp.hook
  have hb := emitBlocks_foldl_spec bp.blocks
    ((emitHook bp.hook).1, 0, (emitHook bp.hook).2)
  have b1 : (writerCore bp).1 =
      (emitHook bp.hook).1 + 14 * totalLoops bp.blocks + 3 * rehookCount bp.blocks :=
    hb.1
  have b2 : (writerCore bp).2.2.length =
      (emitHook bp.hook).2.length + 4 * totalLoops bp.blocks + rehookCount bp.blocks :=
    hb.2
  obtain ⟨rest, hrest0⟩ := emitBlocks_foldl_lines_prefix bp.blocks
    ((emitHook bp.hook).1, 0, (emitHook bp.hook).2)
  have hrest : (writerCore bp).2.2 = (emitHook bp.hook).2 ++ rest := hrest0
  have hav : (run_writer state bp dossier).1.script.av_lines =
      (writerCore bp).2.2 ++ closingLines (writerCore bp).1 := rfl
  have hdur : (run_writer state bp dossier).1.script.total_duration_sec =
      (((writerCore bp).1 + 4 + 5 : Nat) : Int) := rfl
  refine ⟨?_, ?_, rfl, ?_⟩
  · rw [hav, List.length_append]
    have hc2 : (closingLines (writerCore bp).1).length = 2 := rfl
    rw [hc2, b2, hlen]
  · rw [hdur, b1, hsec]
    congr 1
    omega
  · rw [hav, hrest, List.append_assoc, List.map_append, ← htc]
    have h3 : (List.map (fun l => l.timecode) (emitHook bp.hook).2).length = 3 := by
      rw [List.length_map, hlen]
    rw [← h3]
    exact List.take_left _ _

/-! ## Model gateway retry loop (`main.py`, `call_gemini`)

The remote endpoint is an oracle assigning one response envelope to
each attempt index.  A response models the status code and the parsed
JSON envelope (`candidates`, each with `content.parts`, each part
optionally carrying a `text` key).  The network layer and `time.sleep`
are external; the trace records how many attempts ran and which
backoff delays were requested. -/

def RETRY_COUNT : Nat := 3

def RETRY_BASE_DELAY : ℚ := 1

structure GeminiPart where
  text : Option String
deriving DecidableEq, Repr

structure GeminiCandidate where
  parts : List GeminiPart
deriving DecidableEq, Repr

structure GeminiResponse where
  status_code : Nat
  candidates : List GeminiCandidate
deriving DecidableEq, Repr

inductive GeminiError where
  | httpStatus (code : Nat)
  | emptyCandidates
  | emptyText
deriving DecidableEq, Repr

/-- `text += part["text"]` over the first candidate's parts. -/
def extractText (parts : List GeminiPart) : String :=
  String.join (parts.filterMap (fun p => p.text))

/-- One attempt body: non-200 status raises, an empty candidate list
raises, an empty extracted text raises, otherwise the text is returned. -/
def attemptOutcome (r : GeminiResponse) : Except GeminiError String :=
  if r.status_code ≠ 200 then .error (.httpStatus r.status_code)
  else
    match r.candidates with
    | [] => .error .emptyCandidates
    | c :: _ =>
      let text := extractText c.parts
      if text = "" then .error .emptyText else .ok text

structure CallTrace where
  attempts : Nat
  waits : List ℚ
  outcome : Except GeminiError String
deriving Repr

/-- The `for attempt in range(RETRY_COUNT + 1)` loop: on success return
immediately; on failure with retries remaining, sleep
`RETRY_BASE_DELAY * 2 ** attempt` and continue; on the final failure
re-raise the last error. -/
def callGeminiAux (oracle : Nat → GeminiResponse) (attempt remaining : Nat) :
    CallTrace :=
  match attemptOutcome (oracle attempt) with
  | .ok t => ⟨1, [], .ok t⟩
  | .error e =>
    match remaining with
    | 0 => ⟨1, [], .error e⟩
    | r + 1 =>
      let rest := callGeminiAux oracle (attempt + 1) r
      ⟨rest.attempts + 1, (RETRY_BASE_DELAY * 2 ^ attempt) :: rest.waits,
        rest.outcome⟩

def call_gemini (oracle : Nat → GeminiResponse) : CallTrace :=
  callGeminiAux oracle 0 RETRY_COUNT

theorem callGeminiAux_all_fail (oracle : Nat → GeminiResponse) :
    ∀ (remaining attempt : Nat),
      (∀ i, attempt ≤ i → i ≤ attempt + remaining →
        (attemptOutcome (oracle i)).isOk = false) →
      callGeminiAux oracle attempt remaining =
        ⟨remaining + 1,
         (List.range remaining).map (fun k => RETRY_BASE_DELAY * 2 ^ (attempt + k)),
         attemptOutcome (oracle (attempt + remaining))⟩ := by
  intro remaining
  induction remaining with
  | zero =>
    intro attempt hfail
    have h := hfail attempt (le_refl _) (by omega)
    unfold callGeminiAux
    cases ho : attemptOutcome (oracle attempt) with
    | ok t => rw [ho] at h; simp [Except.isOk, Except.toBool] at h
    | error e => simp [ho]
  | succ r ih =>
    intro attempt hfail
    have h := hfail attempt (le_refl _) (by omega)
    unfold callGeminiAux
    cases ho : attemptOutcome (oracle attempt) with
    | ok t => rw [ho] at h; simp [Except.isOk, Except.toBool] at h
    | error e =>
      have hrec := ih (attempt + 1) (fun i h1 h2 => hfail i (by omega) (by omega))
      show CallTrace.mk ((callGeminiAux oracle (attempt + 1) r).attempts + 1)
          (RETRY_BASE_DELAY * 2 ^ attempt ::
            (callGeminiAux oracle (attempt + 1) r).waits)
          (callGeminiAux oracle (attempt + 1) r).outcome = _
      rw [hrec]
      simp only [CallTrace.mk.injEq]
      refine ⟨trivial, ?_, ?_⟩
      · rw [List.range_succ_eq_map]
        simp only [List.map_cons, List.map_map, Function.comp_def, Nat.add_zero]
        congr 1
        apply List.map_congr_left
        intro k _
        have hk : attempt + 1 + k = attempt + (k + 1) := by omega
        rw [hk]
      · have hk : attempt + 1 + r = attempt + (r + 1) := by omega
        rw [hk]

theorem callGeminiAux_first_ok (oracle : Nat → GeminiResponse) :
    ∀ (remaining attempt j : Nat) (t : String), j ≤ remaining →
      (∀ i, attempt ≤ i → i < attempt + j →
        (attemptOutcome (oracle i)).isOk = false) →
      attemptOutcome (oracle (attempt + j)) = .ok t →
      callGeminiAux oracle attempt remaining =
        ⟨j + 1,
         (List.range j).map (fun k => RETRY_BASE_DELAY * 2 ^ (attempt + k)),
         .ok t⟩ := by
  intro remaining
  induction remaining with
  | zero =>
    intro attempt j t hj _ hok
    interval_cases j
    unfold callGeminiAux
    simp only [Nat.add_zero] at hok
    simp [hok]
  | succ r ih =>
    intro attempt j t hj hfail hok
    cases j with
    | zero =>
      unfold callGeminiAux
      simp only [Nat.add_zero] at hok
      simp [hok]
    | succ j' =>
      have h0 := hfail attempt (le_refl _) (by omega)
      unfold callGeminiAux
      cases ho : attemptOutcome (oracle attempt) with
      | ok t0 => rw [ho] at h0; simp [Except.isOk, Except.toBool] at h0
      | error e =>
        have hrec := ih (attempt + 1) j' t (by omega)
          (fun i h1 h2 => hfail i (by omega) (by omega))
          (by rw [show attempt + 1 + j' = attempt + (j' + 1) by omega]; exact hok)
        show CallTrace.mk ((callGeminiAux oracle (attempt + 1) r).attempts + 1)
            (RETRY_BASE_DELAY * 2 ^ attempt ::
              (callGeminiAux oracle (attempt + 1) r).waits)
            (callGeminiAux oracle (attempt + 1) r).outcome = _
        rw [hrec]
        simp only [CallTrace.mk.injEq]
        refine ⟨trivial, ?_, trivial⟩
        rw [List.range_succ_eq_map]
        simp only [List.map_cons, List.map_map, Function.comp_def, Nat.add_zero]
        congr 1
        apply List.map_congr_left
        intro k _
        have hk : attempt + 1 + k = attempt + (k + 1) := by omega
        rw [hk]

/-- C4: under an oracle model of the remote endpoint, when every
attempt fails (non-200 status, empty candidate list, or empty
extracted text) `call_gemini` makes exactly `RETRY_COUNT + 1 = 4`
attempts, sleeps `RETRY_BASE_DELAY·2^i` after failed attempt `i` for
`i = 0, 1, 2` (doubling from the base), and re-raises the outcome of
the last attempt; and if the first `j` attempts fail and attempt `j`
succeeds, it stops after `j + 1` attempts and returns the extracted
text. -/
theorem claim_C4_retry_policy (oracle : Nat → GeminiResponse) :
    ((∀ i, i ≤ RETRY_COUNT → (attemptOutcome (oracle i)).isOk = false) →
      (call_gemini oracle).attempts = RETRY_COUNT + 1 ∧
      RETRY_COUNT + 1 = 4 ∧
      (call_gemini oracle).waits =
        (List.range RETRY_COUNT).map (fun i => RETRY_BASE_DELAY * 2 ^ i) ∧
      (call_gemini oracle).outcome = attemptOutcome (oracle RETRY_COUNT)) ∧
    (∀ (j : Nat) (t : String), j ≤ RETRY_COUNT →
      (∀ i, i < j → (attemptOutcome (oracle i)).isOk = false) →
      attemptOutcome (oracle j) = .ok t →
      (call_gemini oracle).attempts = j + 1 ∧
      (call_gemini oracle).outcome = .ok t) := by
  constructor
  · intro hfail
    have h := callGeminiAux_all_fail oracle RETRY_COUNT 0
      (fun i h1 h2 => hfail i (by omega))
    unfold call_gemini
    rw [h]
    refine ⟨rfl, rfl, ?_, rfl⟩
    simp
  · intro j t hj hfail hok
    have h := callGeminiAux_first_ok oracle RETRY_COUNT 0 j t hj
      (fun i h1 h2 => hfail i (by omega))
      (by simpa using hok)
    unfold call_gemini
    rw [h]
    exact ⟨rfl, rfl⟩

/-- An oracle that always fails (HTTP 500) and one that succeeds
immediately with text "ok". -/
def oracleDown : Nat → GeminiResponse := fun _ => ⟨500, []⟩

def oracleUp : Nat → GeminiResponse := fun _ => ⟨200, [⟨[⟨some "ok"⟩]⟩]⟩

theorem claim_C4_witness :
    ((call_gemini oracleDown).attempts = RETRY_COUNT + 1 ∧
     RETRY_COUNT + 1 = 4 ∧
     (call_gemini oracleDown).waits =
       (List.range RETRY_COUNT).map (fun i => RETRY_BASE_DELAY * 2 ^ i) ∧
     (call_gemini oracleDown).outcome = attemptOutcome (oracleDown RETRY_COUNT)) ∧
    ((call_gemini oracleUp).attempts = 0 + 1 ∧
     (call_gemini oracleUp).outcome = .ok "ok") :=
  ⟨(claim_C4_retry_policy oracleDown).1 (fun i _ => rfl),
   (claim_C4_retry_policy oracleUp).2 0 "ok" (by decide) (fun i hi => by omega)
     (by
       have h2 : extractText [⟨some "ok"⟩] = "ok" := by decide
       simp [attemptOutcome, oracleUp, h2])⟩

/-! ## Splitter lemmas -/

theorem splitBy_cons (p : Char → Bool) (c : Char) (cs : List Char) :
    splitBy p (c :: cs) = splitStep p c (splitBy p cs) := rfl

theorem splitStep_cons (p : Char → Bool) (c : Char) (seg : List Char)
    (rest : List (List Char)) :
    splitStep p c (seg :: rest) =
      if p c then [] :: seg :: rest else (c :: seg) :: rest := rfl

theorem splitBy_ne_nil (p : Char → Bool) (cs : List Char) : splitBy p cs ≠ [] := by
  induction cs with
  | nil => simp [splitBy]
  | cons c cs ih =>
    rw [splitBy_cons]
    cases h : splitBy p cs with
    | nil => exact absurd h ih
    | cons seg rest =>
      rw [splitStep_cons]
      by_cases hp : p c <;> simp [hp]

theorem foldr_splitStep_init (p : Char → Bool) (cs : List Char) :
    ∀ R, cs.foldr (splitStep p) ([] :: R) = splitBy p cs ++ R := by
  induction cs with
  | nil => intro R; rfl
  | cons c cs ih =>
    intro R
    rw [List.foldr_cons, ih R, splitBy_cons]
    cases h : splitBy p cs with
    | nil => exact absurd h (splitBy_ne_nil p cs)
    | cons seg rest =>
      rw [splitStep_cons]
      rw [show (seg :: rest) ++ R = seg :: (rest ++ R) from rfl, splitStep_cons]
      by_cases hp : p c <;> simp [hp]

theorem splitBy_append_delim (p : Char → Bool) {c : Char} (hc : p c = true)
    (xs ys : List Char) :
    splitBy p (xs ++ c :: ys) = splitBy p xs ++ splitBy p ys := by
  unfold splitBy
  rw [List.foldr_append, List.foldr_cons]
  have hstep : splitStep p c (splitBy p ys) = [] :: splitBy p ys := by
    cases h : splitBy p ys with
    | nil => exact absurd h (splitBy_ne_nil p ys)
    | cons seg rest =>
      rw [splitStep_cons]
      simp [hc]
  rw [show List.foldr (splitStep p) [[]] ys = splitBy p ys from rfl, hstep]
  exact foldr_splitStep_init p xs _

theorem splitBy_no_delim (p : Char → Bool) (cs : List Char)
    (h : ∀ c ∈ cs, p c = false) : splitBy p cs = [cs] := by
  induction cs with
  | nil => rfl
  | cons c cs ih =>
    unfold splitBy
    rw [List.foldr_cons]
    have hcs : List.foldr (splitStep p) [[]] cs = [cs] :=
      ih (fun d hd => h d (by simp [hd]))
    rw [hcs, splitStep_cons]
    simp [h c (by simp)]

/-- Non-empty segments of a `p`-split: exactly Python's
`[w for w in re.split(...) if w]` shape. -/
def nonEmptySegs (p : Char → Bool) (cs : List Char) : List (List Char) :=
  (splitBy p cs).filter (fun s => s ≠ [])

theorem nonEmptySegs_cons_delim (p : Char → Bool) {c : Char} (hc : p c = true)
    (ys : List Char) : nonEmptySegs p (c :: ys) = nonEmptySegs p ys := by
  have h := splitBy_append_delim p hc [] ys
  simp only [List.nil_append] at h
  unfold nonEmptySegs
  rw [h]
  rfl

theorem nonEmptySegs_append_delim_nil (p : Char → Bool) {c : Char}
    (hc : p c = true) (xs : List Char) :
    nonEmptySegs p (xs ++ [c]) = nonEmptySegs p xs := by
  have h := splitBy_append_delim p hc xs []
  unfold nonEmptySegs
  rw [h, List.filter_append]
  simp [splitBy]

theorem wordsOf_eq_nonEmptySegs (cs : List Char) :
    wordsOf cs = nonEmptySegs isSpaceChar cs := rfl

theorem wordsOf_dropWhile (cs : List Char) :
    wordsOf (cs.dropWhile isSpaceChar) = wordsOf cs := by
  induction cs with
  | nil => rfl
  | cons c cs ih =>
    by_cases hc : isSpaceChar c
    · rw [List.dropWhile_cons_of_pos hc, ih, wordsOf_eq_nonEmptySegs,
        wordsOf_eq_nonEmptySegs, nonEmptySegs_cons_delim _ hc]
    · rw [List.dropWhile_cons_of_neg hc]

theorem wordsOf_append_spaces (ds : List Char) :
    ∀ ts : List Char, (∀ c ∈ ts, isSpaceChar c = true) →
      wordsOf (ds ++ ts) = wordsOf ds := by
  intro ts
  induction ts generalizing ds with
  | nil => intro _; rw [List.append_nil]
  | cons t ts ih =>
    intro h
    have : ds ++ t :: ts = (ds ++ [t]) ++ ts := by simp
    rw [this, ih (ds ++ [t]) (fun c hc => h c (by simp [hc])),
      wordsOf_eq_nonEmptySegs, wordsOf_eq_nonEmptySegs,
      nonEmptySegs_append_delim_nil _ (h t (by simp))]

theorem wordsOf_stripChars (cs : List Char) :
    wordsOf (stripChars cs) = wordsOf cs := by
  unfold stripChars
  set A := cs.dropWhile isSpaceChar with hA
  have hsplit : A.reverse = A.reverse.takeWhile isSpaceChar ++
      A.reverse.dropWhile isSpaceChar := (List.takeWhile_append_dropWhile _ _).symm
  have hA2 : A = (A.reverse.dropWhile isSpaceChar).reverse ++
      (A.reverse.takeWhile isSpaceChar).reverse := by
    have := congrArg List.reverse hsplit
    rw [List.reverse_reverse, List.reverse_append] at this
    exact this
  have hts : ∀ c ∈ (A.reverse.takeWhile isSpaceChar).reverse,
      isSpaceChar c = true := by
    intro c hc
    rw [List.mem_reverse] at hc
    exact List.mem_takeWhile_imp hc
  calc wordsOf (A.reverse.dropWhile isSpaceChar).reverse
      = wordsOf ((A.reverse.dropWhile isSpaceChar).reverse ++
          (A.reverse.takeWhile isSpaceChar).reverse) :=
        (wordsOf_append_spaces _ _ hts).symm
    _ = wordsOf A := by rw [← hA2]
    _ = wordsOf cs := wordsOf_dropWhile cs

/-! ## Rounding lemmas -/

theorem le_roundHalfEven (x : ℚ) : ⌊x⌋ ≤ roundHalfEven x := by
  unfold roundHalfEven
  split_ifs <;> omega

theorem roundHalfEven_le (x : ℚ) : roundHalfEven x ≤ ⌊x⌋ + 1 := by
  unfold roundHalfEven
  split_ifs <;> omega

theorem roundHalfEven_mono {x y : ℚ} (h : x ≤ y) :
    roundHalfEven x ≤ roundHalfEven y := by
  rcases lt_or_eq_of_le (Int.floor_le_floor h) with hf | hf
  · calc roundHalfEven x ≤ ⌊x⌋ + 1 := roundHalfEven_le x
      _ ≤ ⌊y⌋ := by omega
      _ ≤ roundHalfEven y := le_roundHalfEven y
  · unfold roundHalfEven
    rw [hf]
    have hr : x - (⌊y⌋ : ℚ) ≤ y - (⌊y⌋ : ℚ) := by linarith
    split_ifs <;> first | omega | linarith

theorem roundHalfEven_nonneg {x : ℚ} (h : 0 ≤ x) : 0 ≤ roundHalfEven x := by
  have h1 : (0 : ℤ) ≤ ⌊x⌋ := Int.floor_nonneg.mpr h
  have h2 := le_roundHalfEven x
  omega

theorem pyRound_mono (d : Nat) {x y : ℚ} (h : x ≤ y) :
    pyRound d x ≤ pyRound d y := by
  unfold pyRound
  have hm : x * 10 ^ d ≤ y * 10 ^ d :=
    mul_le_mul_of_nonneg_right h (by positivity)
  gcongr
  exact_mod_cast roundHalfEven_mono hm

theorem pyRound_nonneg (d : Nat) {x : ℚ} (h : 0 ≤ x) : 0 ≤ pyRound d x := by
  unfold pyRound
  apply div_nonneg _ (by positivity)
  exact_mod_cast roundHalfEven_nonneg (mul_nonneg h (by positivity))

/-! ## Staccato analysis (`analyzer.py`, `analyze_staccato`) -/

/-- `re.split(r"[.!?]+", text)`, then strip, then drop empties.  This
splits on each single terminator and drops blank segments, which gives
the same filtered list as splitting on terminator runs. -/
def sentencesOf (text : String) : List String :=
  ((splitBy isTermChar text.toList).map
    (fun cs => String.mk (stripChars cs))).filter (fun s => s ≠ "")

structure StaccatoReport where
  total_sentences : Nat
  avg_words_per_sentence : ℚ
  short_sentences_pct : ℚ
  long_sentences : List String
  verdict : String
deriving DecidableEq, Repr

def analyze_staccato (text : String) : StaccatoReport :=
  let sentences := sentencesOf text
  if sentences = [] then
    ⟨0, 0, 0, [], "Текст пуст."⟩
  else
    let word_counts := sentences.map wordCount
    let avg : ℚ := (word_counts.sum : ℚ) / (word_counts.length : ℚ)
    let short : Nat := word_counts.countP (fun c => c ≤ 8)
    let short_pct : ℚ := (short : ℚ) / (sentences.length : ℚ)
    let long := ((sentences.zip word_counts).filter
      (fun p => 20 < p.2)).map (fun p => p.1)
    let verdict :=
      if avg ≤ 8 ∧ short_pct ≥ 0.6 then
        "Стиль Стаккато соблюдён. Ритм рубленый и динамичный."
      else if avg ≤ 12 then
        "Допустимо, но можно разбить длинные предложения. Цель: среднее <= 8 слов."
      else
        "ПРОБЛЕМА: Предложения слишком длинные. Текст не подходит для восприятия на слух. Разбейте на короткие фразы в стиле Стаккато."
    ⟨sentences.length, pyRound 1 avg, pyRound 2 short_pct, long.take 5, verdict⟩

theorem wordCount_mk_strip (cs : List Char) :
    wordCount (String.mk (stripChars cs)) = (wordsOf cs).length := by
  unfold wordCount
  rw [show (String.mk (stripChars cs)).toList = stripChars cs from rfl,
    wordsOf_stripChars]

/-- Appending sentences to a text: each appended sentence is preceded
by a terminating period, so the existing text's sentences are closed
first and each new sentence forms its own segment. -/
def appendSentences (t : String) : List String → String
  | [] => t
  | s :: rest => appendSentences (t ++ "." ++ s) rest

theorem sentencesOf_dot (t s : String)
    (hs : ∀ c ∈ s.toList, isTermChar c = false) :
    sentencesOf (t ++ "." ++ s) = sentencesOf t ++
      ([String.mk (stripChars s.toList)].filter (fun x => x ≠ "")) := by
  unfold sentencesOf
  have htl : (t ++ "." ++ s).toList = t.toList ++ '.' :: s.toList := by
    show (t ++ "." ++ s).data = t.data ++ '.' :: s.data
    rw [String.data_append, String.data_append,
      show (".".data : List Char) = ['.'] from by decide, List.append_assoc]
    rfl
  rw [htl, splitBy_append_delim isTermChar (by decide) t.toList s.toList,
    splitBy_no_delim isTermChar s.toList hs, List.map_append, List.filter_append]
  rfl

theorem sentencesOf_appendSentences (ss : List String) :
    ∀ t : String, (∀ s ∈ ss, ∀ c ∈ s.toList, isTermChar c = false) →
      sentencesOf (appendSentences t ss) = sentencesOf t ++
        ((ss.map (fun s => String.mk (stripChars s.toList))).filter
          (fun x => x ≠ "")) := by
  induction ss with
  | nil => intro t _; simp [appendSentences]
  | cons s rest ih =>
    intro t h
    show sentencesOf (appendSentences (t ++ "." ++ s) rest) = _
    rw [ih (t ++ "." ++ s) (fun s' hs' c hc => h s' (by simp [hs']) c hc),
      sentencesOf_dot t s (h s (by simp)), List.map_cons]
    by_cases he : String.mk (stripChars s.data) = "" <;>
      simp [List.filter_cons, String.toList, he, List.append_assoc]

theorem frac_mono (k n m' : Nat) (hk : k ≤ n) (hn : 0 < n) :
    (k : ℚ) / (n : ℚ) ≤ ((k + m' : Nat) : ℚ) / ((n + m' : Nat) : ℚ) := by
  have hn' : (0 : ℚ) < n := by exact_mod_cast hn
  have hnm : (0 : ℚ) < ((n + m' : Nat) : ℚ) := by
    push_cast
    linarith [show (0 : ℚ) ≤ m' by positivity]
  rw [div_le_div_iff₀ hn' hnm]
  push_cast
  have h1 : (k : ℚ) ≤ (n : ℚ) := by exact_mod_cast hk
  have h2 : (0 : ℚ) ≤ m' := by positivity
  nlinarith

/-- C7: `analyze_staccato` is a pure function, so re-analysis of the
identical text yields the identical report; and appending sentences of
at most 8 words each (terminator-free, appended behind a closing
period) can only grow the reported short-sentence fraction. -/
theorem claim_C7_staccato_monotone :
    (∀ text : String, analyze_staccato text = analyze_staccato text) ∧
    (∀ (t : String) (ss : List String),
      (∀ s ∈ ss, (∀ c ∈ s.toList, isTermChar c = false) ∧ wordCount s ≤ 8) →
      (analyze_staccato t).short_sentences_pct ≤
        (analyze_staccato (appendSentences t ss)).short_sentences_pct) := by
  refine ⟨fun _ => rfl, ?_⟩
  intro t ss h
  have hdecomp := sentencesOf_appendSentences ss t (fun s hs => (h s hs).1)
  set extra := ((ss.map (fun s => String.mk (stripChars s.toList))).filter
    (fun x => x ≠ "")) with hextra_def
  have hextra : ∀ e ∈ extra, wordCount e ≤ 8 := by
    intro e he
    rw [hextra_def, List.mem_filter] at he
    obtain ⟨hm, _⟩ := he
    rw [List.mem_map] at hm
    obtain ⟨s, hs, rfl⟩ := hm
    have := wordCount_mk_strip s.toList
    unfold wordCount at this ⊢
    rw [this]
    exact (h s hs).2
  by_cases ho : sentencesOf t = []
  · have hl : (analyze_staccato t).short_sentences_pct = 0 := by
      simp [analyze_staccato, ho]
    rw [hl]
    by_cases he : sentencesOf (appendSentences t ss) = []
    · simp [analyze_staccato, he]
    · simp only [analyze_staccato, he, if_neg, not_false_iff]
      apply pyRound_nonneg
      positivity
  · have hne : sentencesOf (appendSentences t ss) ≠ [] := by
      rw [hdecomp]
      simp [ho]
    simp only [analyze_staccato, ho, hne, if_neg, not_false_iff]
    rw [hdecomp]
    apply pyRound_mono
    rw [List.map_append, List.countP_append]
    have hextra_count : (extra.map wordCount).countP (fun c => decide (c ≤ 8)) =
        (extra.map wordCount).length := by
      rw [List.countP_eq_length]
      intro a ha
      rw [List.mem_map] at ha
      obtain ⟨e, he, rfl⟩ := ha
      simpa using hextra e he
    rw [List.length_append]
    have hk : ((sentencesOf t).map wordCount).countP (fun c => decide (c ≤ 8)) ≤
        (sentencesOf t).length := by
      calc ((sentencesOf t).map wordCount).countP (fun c => decide (c ≤ 8)) ≤
          ((sentencesOf t).map wordCount).length := List.countP_le_length _
        _ = (sentencesOf t).length := List.length_map _ _
    have hn : 0 < (sentencesOf t).length := List.length_pos.mpr ho
    have := frac_mono (((sentencesOf t).map wordCount).countP (fun c => decide (c ≤ 8)))
      (sentencesOf t).length extra.length hk hn
    rw [hextra_count, List.length_map]
    push_cast at this ⊢
    convert this using 2

theorem claim_C7_witness :
    (∀ s ∈ (["It works", "We act"] : List String),
      (∀ c ∈ s.toList, isTermChar c = false) ∧ wordCount s ≤ 8) ∧
    (analyze_staccato "Look. This is big").short_sentences_pct ≤
      (analyze_staccato
        (appendSentences "Look. This is big" ["It works", "We act"])).short_sentences_pct :=
  ⟨by decide, claim_C7_staccato_monotone.2 "Look. This is big"
    ["It works", "We act"] (by decide)⟩

/-! ## But/Therefore analysis (`structure.py`, `analyze_but_therefore`)

Each regex pattern is a `\b`-delimited sequence of literal segments
joined by `\s+` (for example `\bи\s+затем\b` is `["и", "затем"]`, and
`\bиз-за\s+этого\b` is `["из-за", "этого"]`).  `re.finditer` scans
left to right and collects non-overlapping matches; the scanner below
does the same over the character list, with fuel equal to the text
length (every step consumes at least one character). -/

def AND_THEN_PATTERNS : List (List String) :=
  [["и", "затем"], ["и", "потом"], ["после", "этого"],
   ["а", "потом"], ["после", "чего"], ["затем"],
   ["and", "then"], ["after", "that"], ["next"]]

def BUT_THEREFORE_PATTERNS : List (List String) :=
  [["но"], ["однако"], ["впрочем"],
   ["следовательно"], ["поэтому"], ["в", "результате"],
   ["из-за", "этого"], ["таким", "образом"],
   ["but"], ["however"], ["therefore"], ["consequently"]]

/-- The `\w` class of Python `re` restricted to the character sets this
code base uses (ASCII alphanumerics, underscore, Cyrillic letters). -/
def isReWordChar (c : Char) : Bool :=
  c.isAlphanum || c == '_' || ('а' ≤ c && c ≤ 'я') || ('А' ≤ c && c ≤ 'Я') ||
  c == 'ё' || c == 'Ё'

/-- Match the literal segments separated by non-empty whitespace runs
(`\s+` is greedy and each segment starts with a non-space character, so
the maximal run is the only candidate).  Returns the matched text and
the remaining input. -/
def matchSegs : List (List Char) → List Char → Option (List Char × List Char)
  | [], cs => some ([], cs)
  | [l], cs => if l.isPrefixOf cs then some (l, cs.drop l.length) else none
  | l :: ls, cs =>
    if l.isPrefixOf cs then
      let rest := cs.drop l.length
      let ws := rest.takeWhile isSpaceChar
      if ws = [] then none
      else
        match matchSegs ls (rest.dropWhile isSpaceChar) with
        | none => none
        | some (m, rest2) => some (l ++ ws ++ m, rest2)
    else none

/-- The trailing `\b`: the next character is absent or not a word
character (every pattern ends in a word character). -/
def boundaryAfterOk (rest : List Char) : Bool :=
  match rest with
  | [] => true
  | c :: _ => !isReWordChar c

/-- Left-to-right non-overlapping scan.  `prevW` records whether the
previous character is a word character (the leading `\b`). -/
def scanPattern (pat : List (List Char)) : Nat → Bool → List Char → List (List Char)
  | 0, _, _ => []
  | _ + 1, _, [] => []
  | fuel + 1, prevW, c :: rest =>
    if !prevW then
      match matchSegs pat (c :: rest) with
      | some (m, rest2) =>
        if boundaryAfterOk rest2 && m ≠ [] then
          m :: scanPattern pat fuel true rest2
        else
          scanPattern pat fuel (isReWordChar c) rest
      | none => scanPattern pat fuel (isReWordChar c) rest
    else
      scanPattern pat fuel (isReWordChar c) rest

def findMatches (pat : List String) (text : String) : List String :=
  (scanPattern (pat.map String.toList) text.toList.length false text.toList).map
    String.mk

structure ButThereforeReport where
  and_then_count : Nat
  and_then_examples : List String
  but_therefore_count : Nat
  but_therefore_examples : List String
  ratio : ℚ
  verdict : String
deriving DecidableEq, Repr

def but_therefore_verdict (ratio : ℚ) (and_then_count : Nat) : String :=
  if and_then_count = 0 then
    "Связки «И затем» не обнаружены. Текст драматургически чист."
  else if ratio ≥ 0.8 then
    "Отлично: преобладают причинно-следственные связки."
  else if ratio ≥ 0.5 then
    "Допустимо, но есть места для усиления конфликта."
  else
    "ПРОБЛЕМА: Слишком много «И затем». Текст читается как перечисление. Замените на «НО» (конфликт) или «СЛЕДОВАТЕЛЬНО» (решение)."

def analyze_but_therefore (text : String) : ButThereforeReport :=
  let text_lower := pyLower text
  let and_then_matches :=
    (AND_THEN_PATTERNS.map (fun p => findMatches p text_lower)).flatten
  let but_therefore_matches :=
    (BUT_THEREFORE_PATTERNS.map (fun p => findMatches p text_lower)).flatten
  let and_then_count := and_then_matches.length
  let but_therefore_count := but_therefore_matches.length
  let total := and_then_count + but_therefore_count
  let ratio : ℚ :=
    if total = 0 then 0 else (but_therefore_count : ℚ) / (total : ℚ)
  ⟨and_then_count, and_then_matches.take 10,
   but_therefore_count, but_therefore_matches.take 10,
   ratio, but_therefore_verdict ratio and_then_count⟩

/-! ## Editing-rhythm and sound-design analysis (`analyzer.py`) -/

structure RhythmReport where
  total_lines : Nat
  visual_types_used : Finset VisualType
  visual_types_missing : Option (Finset VisualType)
  talking_head_sequences : Nat
  pattern_interrupt_density : ℚ
  verdict : String
deriving DecidableEq

def analyze_editing_rhythm (av_lines : List AVLine) : RhythmReport :=
  if av_lines = [] then
    ⟨0, ∅, none, 0, 0, "A/V сценарий пуст."⟩
  else
    let visual_types_used :=
      av_lines.foldl (fun s l => insert l.visual_type s) ∅
    let thFold := av_lines.foldl
      (fun (acc : Nat × Nat) l =>
        if l.visual_type = VisualType.talking_head then
          (if 3 ≤ acc.2 + 1 then acc.1 + 1 else acc.1, acc.2 + 1)
        else (acc.1, 0))
      (0, 0)
    let talking_head_sequences := thFold.1
    let non_th :=
      (av_lines.filter (fun l => l.visual_type ≠ VisualType.talking_head)).length
    let density : ℚ := (non_th : ℚ) / (av_lines.length : ℚ)
    let missing := Finset.univ \ visual_types_used
    let verdict :=
      if density ≥ 0.6 ∧ talking_head_sequences = 0 then
        "Монтаж динамичный. Pattern Interrupts достаточно."
      else if density ≥ 0.4 then
        "Допустимо, но добавьте больше визуального разнообразия."
      else
        "ПРОБЛЕМА: Слишком много «говорящей головы». Добавить B-Roll, карты, документы, Text Overlay."
    ⟨av_lines.length, visual_types_used, some missing, talking_head_sequences,
     pyRound 2 density, verdict⟩

structure SoundReport where
  total : Nat
  with_sfx : Nat
  sfx_ratio : Option ℚ
  with_music : Nat
  music_ratio : Option ℚ
  verdict : String
deriving DecidableEq, Repr

def analyze_sound_design (av_lines : List AVLine) : SoundReport :=
  if av_lines = [] then
    ⟨0, 0, none, 0, none, "Пусто."⟩
  else
    let with_sfx := (av_lines.filter (fun l => pyStrip l.sfx ≠ "")).length
    let with_music :=
      (av_lines.filter (fun l => pyStrip l.music_mood ≠ "")).length
    let sfx_ratio : ℚ := (with_sfx : ℚ) / (av_lines.length : ℚ)
    let music_ratio : ℚ := (with_music : ℚ) / (av_lines.length : ℚ)
    let issues :=
      (if sfx_ratio < 0.3 then
        ["Мало SFX. Без звуковых эффектов видео ощущается «мёртвым»."] else []) ++
      (if music_ratio < 0.5 then
        ["Мало музыкальных указаний. Музыка должна меняться с сюжетом."] else [])
    let verdict :=
      if issues = [] then "Звуковой дизайн проработан."
      else String.intercalate " " issues
    ⟨av_lines.length, with_sfx, some (pyRound 2 sfx_ratio), with_music,
     some (pyRound 2 music_ratio), verdict⟩

/-! ## Claims C8 and C10 -/

def demoText : String :=
  "Look. This is big. This is bad. But it works. Therefore we must act."

/-- C8 counterexample: on the demo narration text the and-then count is
zero, so `analyze_but_therefore` returns the fixed "no and-then
connectors" verdict, not the ratio-based "excellent" verdict the claim
names. -/
theorem claim_C8_counterexample :
    ¬ ((analyze_but_therefore demoText).verdict =
      "Отлично: преобладают причинно-следственные связки.") := by
  decide

/-- C8 amended: on the demo text the staccato analysis reports 5
sentences, mean words-per-sentence at most 4, short-sentence fraction
1.0 and the "compliant" verdict; the but/therefore analysis reports
zero and-then matches, 2 causal matches ("but" and "therefore"), ratio
1.0 — and, because the and-then count is zero, the "no and-then
connectors found" (clean) verdict rather than the "excellent" one. -/
theorem claim_C8_amended :
    (analyze_staccato demoText).total_sentences = 5 ∧
    (analyze_staccato demoText).avg_words_per_sentence ≤ 4 ∧
    (analyze_staccato demoText).short_sentences_pct = 1 ∧
    (analyze_staccato demoText).verdict =
      "Стиль Стаккато соблюдён. Ритм рубленый и динамичный." ∧
    (analyze_but_therefore demoText).and_then_count = 0 ∧
    (analyze_but_therefore demoText).but_therefore_count = 2 ∧
    (analyze_but_therefore demoText).but_therefore_examples =
      ["but", "therefore"] ∧
    (analyze_but_therefore demoText).ratio = 1 ∧
    (analyze_but_therefore demoText).verdict =
      "Связки «И затем» не обнаружены. Текст драматургически чист." := by
  have hs : sentencesOf demoText =
      ["Look", "This is big", "This is bad", "But it works",
       "Therefore we must act"] := by decide
  have hne : sentencesOf demoText ≠ [] := by rw [hs]; decide
  have hword : List.map wordCount
      ["Look", "This is big", "This is bad", "But it works",
       "Therefore we must act"] = [1, 3, 3, 3, 4] := by decide
  have hrep : analyze_staccato demoText =
      ⟨5, pyRound 1 ((14 : ℚ) / 5), pyRound 2 ((5 : ℚ) / 5), [],
       "Стиль Стаккато соблюдён. Ритм рубленый и динамичный."⟩ := by
    simp only [analyze_staccato]
    rw [if_neg hne, hs, hword]
    norm_num
  have hA : (AND_THEN_PATTERNS.map
      (fun p => findMatches p (pyLower demoText))).flatten = [] := by decide
  have hB : (BUT_THEREFORE_PATTERNS.map
      (fun p => findMatches p (pyLower demoText))).flatten =
      ["but", "therefore"] := by decide
  have hbt : analyze_but_therefore demoText =
      ⟨0, [], 2, ["but", "therefore"], 1,
       "Связки «И затем» не обнаружены. Текст драматургически чист."⟩ := by
    simp only [analyze_but_therefore, but_therefore_verdict, hA, hB]
    norm_num
  rw [hrep, hbt]
  refine ⟨rfl, ?_, ?_, rfl, rfl, rfl, rfl, rfl, rfl⟩
  · show pyRound 1 ((14 : ℚ) / 5) ≤ 4
    norm_num [pyRound, roundHalfEven]
  · show pyRound 2 ((5 : ℚ) / 5) = 1
    norm_num [pyRound, roundHalfEven]

/-- C10 counterexample: `analyze_sound_design` on an empty line list
returns a report with NO ratio entries (the fields are absent, not 0),
so "all counts and ratios equal to 0" fails for the ratio fields. -/
theorem claim_C10_counterexample :
    ¬ ((analyze_sound_design []).sfx_ratio = some 0 ∧
       (analyze_sound_design []).music_ratio = some 0) := by
  decide

/-- C10 amended: on no-sentence input `analyze_staccato` returns the
all-zero report with the "empty text" verdict; on an empty AVLine list
`analyze_editing_rhythm` returns a report with every count and the
density equal to 0 (and no missing-types entry), and
`analyze_sound_design` returns a report with counts 0 whose ratio
fields are omitted (the downstream formatter defaults them to 0). -/
theorem claim_C10_empty_inputs :
    (∀ text : String, sentencesOf text = [] →
      analyze_staccato text = ⟨0, 0, 0, [], "Текст пуст."⟩) ∧
    analyze_editing_rhythm [] = ⟨0, ∅, none, 0, 0, "A/V сценарий пуст."⟩ ∧
    analyze_sound_design [] = ⟨0, 0, none, 0, none, "Пусто."⟩ := by
  refine ⟨?_, rfl, rfl⟩
  intro text h
  simp [analyze_staccato, h]

theorem claim_C10_witness :
    sentencesOf " .?! .. " = [] ∧
    analyze_staccato " .?! .. " = ⟨0, 0, 0, [], "Текст пуст."⟩ :=
  ⟨by decide, claim_C10_empty_inputs.1 " .?! .. " (by decide)⟩

end SmartBlockbuster
